import Mathlib

/-!
Verification of the Ockam node-runtime core: routing data model, CBOR wire
codec, length-prefixed stream framing, the TCP sender worker, and the
`Context` send/receive operations.

The data model (`TransportMessage`, `LocalInfo`, `LocalMessage`) is translated
from `ockam_core/src/routing/message/{transport_message,local_message}.rs`.
`Address` and `Route` definitions, and the byte-level codec, are not part of
the source slice and are modelled from the specification (each such
definition carries a `Modelled from the spec:` doc comment).

Machine bytes are `Fin 256`; machine-integer casts are explicit `% 2^w`.
-/

set_option maxHeartbeats 1000000

namespace Ockam

/-- A single octet, as stored in a Rust `u8` / `Vec<u8>` element. -/
abbrev Byte := Fin 256

/-- Reduce a natural number into a byte, as Rust's `as u8` cast does. -/
def byte (n : Nat) : Byte := ⟨n % 256, Nat.mod_lt _ (by norm_num)⟩

theorem byte_val (n : Nat) (h : n < 256) : (byte n).val = n := by
  simp [byte, Nat.mod_eq_of_lt h]

/-- Modelled from the spec: `Address` is missing from the source slice.
"Address. `(transport_type: u8, value: bytes)`. `transport_type = 0` means
local (in-process). Addresses are compared by both fields." -/
structure Address where
  transport_type : Byte
  value : List Byte
deriving DecidableEq, Repr, Inhabited

/-- Modelled from the spec: `Route` is missing from the source slice.
"Route. An ordered sequence of addresses describing onward hops." -/
abbrev Route := List Address

/-- Modelled from the spec: "`next()` (peek first)" on a `Route`. -/
def Route.next (r : Route) : Option Address := r.head?

/-- Modelled from the spec: "`step()` (pop first)" on a `Route`; popping an
empty route is an error (`Err` in the source, `none` here). -/
def Route.step (r : Route) : Option (Address × Route) :=
  match r with
  | [] => none
  | a :: rest => some (a, rest)

/-- The `TransportMessage`, translated from
`ockam_core/src/routing/message/transport_message.rs`: version byte, onward
route, return route and payload bytes, with minicbor field tags 0..3. -/
structure TransportMessage where
  version : Byte
  onward_route : Route
  return_route : Route
  payload : List Byte
deriving DecidableEq, Repr, Inhabited

/-- The `TransportMessage::v1`: "Create a new v1 transport message with empty
return route" (the `return_route` argument is still taken, as in the source). -/
def TransportMessage.v1 (onward_route : Route) (return_route : Route)
    (payload : List Byte) : TransportMessage :=
  { version := 1, onward_route := onward_route,
    return_route := return_route, payload := payload }

/-- The `LocalInfo`, translated from
`ockam_core/src/routing/message/local_message.rs`: a string type identifier
(UTF-8 bytes) and opaque data, minicbor field tags 0 and 1. -/
structure LocalInfo where
  type_identifier : List Byte
  data : List Byte
deriving DecidableEq, Repr, Inhabited

/-- The `LocalMessage`, translated from
`ockam_core/src/routing/message/local_message.rs`: a `TransportMessage` plus
node-local metadata, minicbor field tags 0 and 1. -/
structure LocalMessage where
  transport_message : TransportMessage
  local_info : List LocalInfo
deriving DecidableEq, Repr, Inhabited

/-- The `LocalMessage::into_transport_message`. -/
def LocalMessage.into_transport_message (lm : LocalMessage) : TransportMessage :=
  lm.transport_message

/-- The `LocalMessage::new`. -/
def LocalMessage.new (tm : TransportMessage) (li : List LocalInfo) : LocalMessage :=
  { transport_message := tm, local_info := li }

/-! ## CBOR codec

Modelled from the spec: the concrete `minicbor`-derived codec implementation
is not part of the source slice.  Spec: "self-describing, tagged,
forward-compatible binary codec (concretely CBOR with explicit numeric tags
per field) ... TransportMessage encoding: tagged-field CBOR with fields
`0:version(u8) 1:onward_route 2:return_route 3:payload(bytes)`.  Route
encoding: array of addresses, each `{0:transport_type(u8) 1:value(bytes)}`."
Structs are CBOR maps keyed by the numeric field tags, routes and local-info
lists are CBOR arrays, byte arrays use the CBOR bytes major type (distinct
from text strings), and heads are minimal-length. -/

/-- Big-endian bytes of `n`, exactly `k` octets wide. -/
def beBytes : Nat → Nat → List Byte
  | 0, _ => []
  | k + 1, n => byte (n / 256 ^ k) :: beBytes k (n % 256 ^ k)

/-- Read `k` big-endian octets from the front of a byte stream. -/
def readBE : Nat → List Byte → Option (Nat × List Byte)
  | 0, l => some (0, l)
  | _ + 1, [] => none
  | k + 1, b :: l => (readBE k l).map (fun p => (b.val * 256 ^ k + p.1, p.2))

/-- Read `k` raw octets from the front of a byte stream. -/
def readN : Nat → List Byte → Option (List Byte × List Byte)
  | 0, l => some ([], l)
  | _ + 1, [] => none
  | k + 1, b :: l => (readN k l).map (fun p => (b :: p.1, p.2))

/-- CBOR head for major type `major` with argument `n`, minimal-length
encoded (as minicbor writes it). -/
def encodeHead (major n : Nat) : List Byte :=
  if n < 24 then [byte (major * 32 + n)]
  else if n < 256 then byte (major * 32 + 24) :: beBytes 1 n
  else if n < 65536 then byte (major * 32 + 25) :: beBytes 2 n
  else if n < 4294967296 then byte (major * 32 + 26) :: beBytes 4 n
  else byte (major * 32 + 27) :: beBytes 8 n

/-- Decode a CBOR head: returns the major type, the argument and the rest. -/
def decodeHead : List Byte → Option (Nat × Nat × List Byte)
  | [] => none
  | b :: l =>
    if b.val % 32 < 24 then some (b.val / 32, b.val % 32, l)
    else if b.val % 32 = 24 then (readBE 1 l).map (fun p => (b.val / 32, p.1, p.2))
    else if b.val % 32 = 25 then (readBE 2 l).map (fun p => (b.val / 32, p.1, p.2))
    else if b.val % 32 = 26 then (readBE 4 l).map (fun p => (b.val / 32, p.1, p.2))
    else if b.val % 32 = 27 then (readBE 8 l).map (fun p => (b.val / 32, p.1, p.2))
    else none

/-- Encode a list of items by concatenating their encodings. -/
def encodeList (enc : α → List Byte) : List α → List Byte
  | [] => []
  | x :: xs => enc x ++ encodeList enc xs

/-- Decode exactly `k` consecutive items. -/
def decodeItems (dec : List Byte → Option (α × List Byte)) :
    Nat → List Byte → Option (List α × List Byte)
  | 0, l => some ([], l)
  | k + 1, l =>
    (dec l).bind fun p =>
      (decodeItems dec k p.2).map fun q => (p.1 :: q.1, q.2)

/-- A CBOR byte/text string: head (major 2 for bytes, 3 for text) then raw
content. -/
def encodeByteStr (major : Nat) (bs : List Byte) : List Byte :=
  encodeHead major bs.length ++ bs

/-- Decode a CBOR byte/text string of the given major type. -/
def decodeByteStr (major : Nat) (l : List Byte) : Option (List Byte × List Byte) :=
  (decodeHead l).bind fun x =>
    if x.1 = major then readN x.2.1 x.2.2 else none

/-- Decode an unsigned integer that must equal the expected map key `k`. -/
def decodeKey (k : Nat) (l : List Byte) : Option (List Byte) :=
  (decodeHead l).bind fun x =>
    if x.1 = 0 ∧ x.2.1 = k then some x.2.2 else none

/-- Decode an unsigned integer small enough to be a `u8`. -/
def decodeByteVal (l : List Byte) : Option (Byte × List Byte) :=
  (decodeHead l).bind fun x =>
    if h : x.1 = 0 ∧ x.2.1 < 256 then some (⟨x.2.1, h.2⟩, x.2.2) else none

/-- CBOR encoding of an `Address`: map `{0: transport_type, 1: value}`. -/
def encodeAddress (a : Address) : List Byte :=
  encodeHead 5 2 ++ encodeHead 0 0 ++ encodeHead 0 a.transport_type.val
    ++ encodeHead 0 1 ++ encodeByteStr 2 a.value

/-- Decode an `Address` from the front of a byte stream. -/
def decodeAddressFrom (l : List Byte) : Option (Address × List Byte) :=
  (decodeHead l).bind fun x =>
    if x.1 = 5 ∧ x.2.1 = 2 then
      (decodeKey 0 x.2.2).bind fun r0 =>
        (decodeByteVal r0).bind fun t =>
          (decodeKey 1 t.2).bind fun r1 =>
            (decodeByteStr 2 r1).map fun v =>
              ({ transport_type := t.1, value := v.1 }, v.2)
    else none

/-- CBOR encoding of a `Route`: array of addresses. -/
def encodeRoute (r : Route) : List Byte :=
  encodeHead 4 r.length ++ encodeList encodeAddress r

/-- Decode a `Route` from the front of a byte stream. -/
def decodeRouteFrom (l : List Byte) : Option (Route × List Byte) :=
  (decodeHead l).bind fun x =>
    if x.1 = 4 then decodeItems decodeAddressFrom x.2.1 x.2.2 else none

/-- CBOR encoding of a `TransportMessage`: map
`{0: version, 1: onward_route, 2: return_route, 3: payload}`. -/
def encodeTransportMessage (tm : TransportMessage) : List Byte :=
  encodeHead 5 4 ++ encodeHead 0 0 ++ encodeHead 0 tm.version.val
    ++ encodeHead 0 1 ++ encodeRoute tm.onward_route
    ++ encodeHead 0 2 ++ encodeRoute tm.return_route
    ++ encodeHead 0 3 ++ encodeByteStr 2 tm.payload

/-- Decode a `TransportMessage` from the front of a byte stream. -/
def decodeTransportMessageFrom (l : List Byte) :
    Option (TransportMessage × List Byte) :=
  (decodeHead l).bind fun x =>
    if x.1 = 5 ∧ x.2.1 = 4 then
      (decodeKey 0 x.2.2).bind fun r0 =>
        (decodeByteVal r0).bind fun v =>
          (decodeKey 1 v.2).bind fun r1 =>
            (decodeRouteFrom r1).bind fun onw =>
              (decodeKey 2 onw.2).bind fun r2 =>
                (decodeRouteFrom r2).bind fun ret =>
                  (decodeKey 3 ret.2).bind fun r3 =>
                    (decodeByteStr 2 r3).map fun p =>
                      ({ version := v.1, onward_route := onw.1,
                         return_route := ret.1, payload := p.1 }, p.2)
    else none

/-- CBOR encoding of a `LocalInfo`: map `{0: type_identifier, 1: data}`,
with the identifier as a text string and the data as bytes. -/
def encodeLocalInfo (li : LocalInfo) : List Byte :=
  encodeHead 5 2 ++ encodeHead 0 0 ++ encodeByteStr 3 li.type_identifier
    ++ encodeHead 0 1 ++ encodeByteStr 2 li.data

/-- Decode a `LocalInfo` from the front of a byte stream. -/
def decodeLocalInfoFrom (l : List Byte) : Option (LocalInfo × List Byte) :=
  (decodeHead l).bind fun x =>
    if x.1 = 5 ∧ x.2.1 = 2 then
      (decodeKey 0 x.2.2).bind fun r0 =>
        (decodeByteStr 3 r0).bind fun t =>
          (decodeKey 1 t.2).bind fun r1 =>
            (decodeByteStr 2 r1).map fun d =>
              ({ type_identifier := t.1, data := d.1 }, d.2)
    else none

/-- CBOR encoding of a `LocalMessage`: map
`{0: transport_message, 1: local_info}`. -/
def encodeLocalMessage (lm : LocalMessage) : List Byte :=
  encodeHead 5 2 ++ encodeHead 0 0 ++ encodeTransportMessage lm.transport_message
    ++ encodeHead 0 1 ++ encodeHead 4 lm.local_info.length
    ++ encodeList encodeLocalInfo lm.local_info

/-- Decode a `LocalMessage` from the front of a byte stream. -/
def decodeLocalMessageFrom (l : List Byte) : Option (LocalMessage × List Byte) :=
  (decodeHead l).bind fun x =>
    if x.1 = 5 ∧ x.2.1 = 2 then
      (decodeKey 0 x.2.2).bind fun r0 =>
        (decodeTransportMessageFrom r0).bind fun tm =>
          (decodeKey 1 tm.2).bind fun r1 =>
            (decodeHead r1).bind fun y =>
              if y.1 = 4 then
                (decodeItems decodeLocalInfoFrom y.2.1 y.2.2).map fun lis =>
                  ({ transport_message := tm.1, local_info := lis.1 }, lis.2)
              else none
    else none

/-- The `Encodable::encode` for `TransportMessage` (derived minicbor impl). -/
def TransportMessage.encode (tm : TransportMessage) : List Byte :=
  encodeTransportMessage tm

/-- The `Decodable::decode` for `TransportMessage`: decode a full buffer. -/
def TransportMessage.decode (l : List Byte) : Option TransportMessage :=
  match decodeTransportMessageFrom l with
  | some (tm, []) => some tm
  | _ => none

/-- The `Encodable::encode` for `LocalMessage` (derived minicbor impl). -/
def LocalMessage.encode (lm : LocalMessage) : List Byte :=
  encodeLocalMessage lm

/-- The `Decodable::decode` for `LocalMessage`: decode a full buffer. -/
def LocalMessage.decode (l : List Byte) : Option LocalMessage :=
  match decodeLocalMessageFrom l with
  | some (lm, []) => some lm
  | _ => none

/-! ### Size bounds

A Rust `Vec` length always fits in a `u64`, which is what CBOR heads carry;
the corresponding bounds are explicit hypotheses here. -/

/-- All lengths inside an `Address` fit in a CBOR head. -/
def sizeOkAddress (a : Address) : Prop := a.value.length < 2 ^ 64

/-- All lengths inside a `Route` fit in a CBOR head. -/
def sizeOkRoute (r : Route) : Prop :=
  r.length < 2 ^ 64 ∧ ∀ a ∈ r, sizeOkAddress a

/-- All lengths inside a `TransportMessage` fit in a CBOR head. -/
def sizeOkTransportMessage (tm : TransportMessage) : Prop :=
  sizeOkRoute tm.onward_route ∧ sizeOkRoute tm.return_route ∧
    tm.payload.length < 2 ^ 64

/-- All lengths inside a `LocalInfo` fit in a CBOR head. -/
def sizeOkLocalInfo (li : LocalInfo) : Prop :=
  li.type_identifier.length < 2 ^ 64 ∧ li.data.length < 2 ^ 64

/-- All lengths inside a `LocalMessage` fit in a CBOR head. -/
def sizeOkLocalMessage (lm : LocalMessage) : Prop :=
  sizeOkTransportMessage lm.transport_message ∧
    lm.local_info.length < 2 ^ 64 ∧ ∀ li ∈ lm.local_info, sizeOkLocalInfo li

instance (a : Address) : Decidable (sizeOkAddress a) := by
  unfold sizeOkAddress; infer_instance

instance (r : Route) : Decidable (sizeOkRoute r) := by
  unfold sizeOkRoute sizeOkAddress; infer_instance

instance (tm : TransportMessage) : Decidable (sizeOkTransportMessage tm) := by
  unfold sizeOkTransportMessage; infer_instance

instance (li : LocalInfo) : Decidable (sizeOkLocalInfo li) := by
  unfold sizeOkLocalInfo; infer_instance

instance (lm : LocalMessage) : Decidable (sizeOkLocalMessage lm) := by
  unfold sizeOkLocalMessage sizeOkLocalInfo; infer_instance

/-! ### Codec round-trip lemmas -/

theorem beBytes_length (k n : Nat) : (beBytes k n).length = k := by
  induction k generalizing n with
  | zero => simp [beBytes]
  | succ k ih => simp [beBytes, ih]

theorem readBE_beBytes (k : Nat) :
    ∀ n r, n < 256 ^ k → readBE k (beBytes k n ++ r) = some (n, r) := by
  induction k with
  | zero => intro n r h; simp at h; simp [h, beBytes, readBE]
  | succ k ih =>
    intro n r h
    have hk : 0 < 256 ^ k := Nat.pos_pow_of_pos k (by norm_num)
    have hdivlt : n / 256 ^ k < 256 := by
      rw [Nat.div_lt_iff_lt_mul hk]
      calc n < 256 ^ (k + 1) := h
        _ = 256 * 256 ^ k := by ring
    have hmodlt : n % 256 ^ k < 256 ^ k := Nat.mod_lt _ hk
    have hsplit : n / 256 ^ k * 256 ^ k + n % 256 ^ k = n := by
      rw [Nat.mul_comm]; exact Nat.div_add_mod n (256 ^ k)
    simp only [beBytes, readBE, List.cons_append, List.append_eq,
      ih (n % 256 ^ k) r hmodlt, Option.map_some', byte_val _ hdivlt, hsplit]

theorem readN_append (bs r : List Byte) : readN bs.length (bs ++ r) = some (bs, r) := by
  induction bs with
  | nil => simp [readN]
  | cons b bs ih => simp [readN, ih]

theorem decodeHead_encodeHead (major n : Nat) (hm : major < 8) (hn : n < 2 ^ 64)
    (r : List Byte) : decodeHead (encodeHead major n ++ r) = some (major, n, r) := by
  have hdiv : ∀ c : Nat, c < 32 → (major * 32 + c) / 32 = major := by
    intro c hc
    rw [Nat.add_comm, Nat.add_mul_div_right _ _ (by norm_num : 0 < 32),
      Nat.div_eq_of_lt hc, Nat.zero_add]
  have hmod : ∀ c : Nat, c < 32 → (major * 32 + c) % 32 = c := by
    intro c hc
    rw [Nat.add_comm, Nat.add_mul_mod_self_right, Nat.mod_eq_of_lt hc]
  rw [encodeHead]
  split_ifs with h1 h2 h3 h4
  · have hb : (byte (major * 32 + n)).val = major * 32 + n :=
      byte_val _ (by omega)
    simp [decodeHead, hb, hdiv n (by omega), hmod n (by omega), h1]
  · have hb : (byte (major * 32 + 24)).val = major * 32 + 24 :=
      byte_val _ (by omega)
    simp [decodeHead, hb, hdiv 24 (by omega), hmod 24 (by omega),
      List.append_assoc, readBE_beBytes 1 n r (by simpa using h2)]
  · have hb : (byte (major * 32 + 25)).val = major * 32 + 25 :=
      byte_val _ (by omega)
    simp [decodeHead, hb, hdiv 25 (by omega), hmod 25 (by omega),
      List.append_assoc, readBE_beBytes 2 n r (by norm_num; omega)]
  · have hb : (byte (major * 32 + 26)).val = major * 32 + 26 :=
      byte_val _ (by omega)
    simp [decodeHead, hb, hdiv 26 (by omega), hmod 26 (by omega),
      List.append_assoc, readBE_beBytes 4 n r (by norm_num; omega)]
  · have hb : (byte (major * 32 + 27)).val = major * 32 + 27 :=
      byte_val _ (by omega)
    simp [decodeHead, hb, hdiv 27 (by omega), hmod 27 (by omega),
      List.append_assoc, readBE_beBytes 8 n r (by norm_num at hn ⊢; omega)]

theorem decodeByteStr_encodeByteStr (major : Nat) (bs : List Byte)
    (hm : major < 8) (h : bs.length < 2 ^ 64) (r : List Byte) :
    decodeByteStr major (encodeByteStr major bs ++ r) = some (bs, r) := by
  simp [encodeByteStr, List.append_assoc, decodeByteStr,
    decodeHead_encodeHead major bs.length hm h, readN_append]

theorem decodeKey_encodeHead (k : Nat) (hk : k < 2 ^ 64) (r : List Byte) :
    decodeKey k (encodeHead 0 k ++ r) = some r := by
  simp [decodeKey, decodeHead_encodeHead 0 k (by norm_num) hk]

theorem decodeByteVal_encodeHead (b : Byte) (r : List Byte) :
    decodeByteVal (encodeHead 0 b.val ++ r) = some (b, r) := by
  have hb : b.val < 2 ^ 64 := lt_trans b.isLt (by norm_num)
  simp [decodeByteVal, decodeHead_encodeHead 0 b.val (by norm_num) hb, b.isLt]

theorem decodeAddressFrom_encodeAddress (a : Address) (h : sizeOkAddress a)
    (r : List Byte) : decodeAddressFrom (encodeAddress a ++ r) = some (a, r) := by
  simp [encodeAddress, List.append_assoc, decodeAddressFrom,
    decodeHead_encodeHead 5 2 (by norm_num) (by norm_num),
    decodeKey_encodeHead 0 (by norm_num), decodeByteVal_encodeHead,
    decodeKey_encodeHead 1 (by norm_num),
    decodeByteStr_encodeByteStr 2 a.value (by norm_num) h]

theorem decodeItems_encodeList (dec : List Byte → Option (α × List Byte))
    (enc : α → List Byte) (xs : List α)
    (h : ∀ x ∈ xs, ∀ r, dec (enc x ++ r) = some (x, r)) (r : List Byte) :
    decodeItems dec xs.length (encodeList enc xs ++ r) = some (xs, r) := by
  induction xs with
  | nil => simp [encodeList, decodeItems]
  | cons x xs ih =>
    simp [encodeList, List.append_assoc, decodeItems,
      h x (List.mem_cons_self x xs),
      ih (fun y hy => h y (List.mem_cons_of_mem x hy))]

theorem decodeRouteFrom_encodeRoute (rt : Route) (h : sizeOkRoute rt)
    (r : List Byte) : decodeRouteFrom (encodeRoute rt ++ r) = some (rt, r) := by
  simp [encodeRoute, List.append_assoc, decodeRouteFrom,
    decodeHead_encodeHead 4 rt.length (by norm_num) h.1,
    decodeItems_encodeList decodeAddressFrom encodeAddress rt
      (fun a ha r' => decodeAddressFrom_encodeAddress a (h.2 a ha) r')]

theorem decodeTransportMessageFrom_encode (tm : TransportMessage)
    (h : sizeOkTransportMessage tm) (r : List Byte) :
    decodeTransportMessageFrom (encodeTransportMessage tm ++ r) = some (tm, r) := by
  simp [encodeTransportMessage, List.append_assoc, decodeTransportMessageFrom,
    decodeHead_encodeHead 5 4 (by norm_num) (by norm_num),
    decodeKey_encodeHead 0 (by norm_num), decodeByteVal_encodeHead,
    decodeKey_encodeHead 1 (by norm_num),
    decodeRouteFrom_encodeRoute tm.onward_route h.1,
    decodeKey_encodeHead 2 (by norm_num),
    decodeRouteFrom_encodeRoute tm.return_route h.2.1,
    decodeKey_encodeHead 3 (by norm_num),
    decodeByteStr_encodeByteStr 2 tm.payload (by norm_num) h.2.2]

theorem decodeLocalInfoFrom_encodeLocalInfo (li : LocalInfo)
    (h : sizeOkLocalInfo li) (r : List Byte) :
    decodeLocalInfoFrom (encodeLocalInfo li ++ r) = some (li, r) := by
  simp [encodeLocalInfo, List.append_assoc, decodeLocalInfoFrom,
    decodeHead_encodeHead 5 2 (by norm_num) (by norm_num),
    decodeKey_encodeHead 0 (by norm_num),
    decodeByteStr_encodeByteStr 3 li.type_identifier (by norm_num) h.1,
    decodeKey_encodeHead 1 (by norm_num),
    decodeByteStr_encodeByteStr 2 li.data (by norm_num) h.2]

theorem decodeLocalMessageFrom_encode (lm : LocalMessage)
    (h : sizeOkLocalMessage lm) (r : List Byte) :
    decodeLocalMessageFrom (encodeLocalMessage lm ++ r) = some (lm, r) := by
  simp [encodeLocalMessage, List.append_assoc, decodeLocalMessageFrom,
    decodeHead_encodeHead 5 2 (by norm_num) (by norm_num),
    decodeKey_encodeHead 0 (by norm_num),
    decodeTransportMessageFrom_encode lm.transport_message h.1,
    decodeKey_encodeHead 1 (by norm_num),
    decodeHead_encodeHead 4 lm.local_info.length (by norm_num) h.2.1,
    decodeItems_encodeList decodeLocalInfoFrom encodeLocalInfo lm.local_info
      (fun li hli r' => decodeLocalInfoFrom_encodeLocalInfo li (h.2.2 li hli) r')]

/-- Top-level round trip for `TransportMessage`. -/
theorem transportMessage_decode_encode (tm : TransportMessage)
    (h : sizeOkTransportMessage tm) :
    TransportMessage.decode (TransportMessage.encode tm) = some tm := by
  have := decodeTransportMessageFrom_encode tm h []
  rw [List.append_nil] at this
  rw [TransportMessage.decode, TransportMessage.encode, this]

/-- Top-level round trip for `LocalMessage`. -/
theorem localMessage_decode_encode (lm : LocalMessage)
    (h : sizeOkLocalMessage lm) :
    LocalMessage.decode (LocalMessage.encode lm) = some lm := by
  have := decodeLocalMessageFrom_encode lm h []
  rw [List.append_nil] at this
  rw [LocalMessage.decode, LocalMessage.encode, this]

/-! ## TCP sender worker

Translated from `ockam_transport_tcp/src/workers/sender.rs`.  The worker's
interactions with the runtime (heartbeat timer, socket, router handle,
worker/processor lifecycle) are recorded as an explicit list of effects;
the socket write outcome is a boolean parameter. -/

/-- Big-endian bytes of a `u16` value (`u16::to_be_bytes`). -/
def u16_to_be_bytes (v : Nat) : List Byte := [byte (v / 256), byte (v % 256)]

/-- Read the leading big-endian `u16` of a frame (as the receiver does);
`0` if the frame is shorter than two bytes. -/
def readU16 : List Byte → Nat
  | b0 :: b1 :: _ => b0.val * 256 + b1.val
  | _ => 0

/-- The `prepare_message` from `sender.rs`: encode the `TransportMessage`, cast
its length to `u16` (`as u16`, i.e. `% 2^16`), and place the two big-endian
length bytes in front via the reverse/append/reverse sequence of the
source. -/
def prepare_message (msg : TransportMessage) : List Byte :=
  let msg_buf := TransportMessage.encode msg
  let len := u16_to_be_bytes (msg_buf.length % 65536)
  ((msg_buf.reverse ++ len.reverse)).reverse

theorem prepare_message_eq (msg : TransportMessage) :
    prepare_message msg =
      u16_to_be_bytes ((TransportMessage.encode msg).length % 65536)
        ++ TransportMessage.encode msg := by
  simp [prepare_message]

/-- The `TcpSendWorkerMsg` from `sender.rs`: internal control messages of the
sender worker. -/
inductive TcpSendWorkerMsg
  | Heartbeat
  | ConnectionClosed
deriving DecidableEq, Repr

/-- The mutable state of a `TcpSendWorker` that the handled claims observe:
whether the write half is present (`tx`), the internal address, and the
stored receiver address (`rx_addr`). -/
structure SenderState where
  hasTx : Bool
  internal_addr : Address
  rx_addr : Option Address
deriving DecidableEq, Repr

/-- An effect the sender worker performs on its environment. -/
inductive Effect
  | cancelHeartbeat
  | socketWrite (bytes : List Byte)
  | unregister (a : Address)
  | stopWorker (a : Address)
  | stopProcessor (a : Address)
  | scheduleHeartbeat
deriving DecidableEq, Repr

/-- Errors surfaced by `TcpSendWorker::handle_message`. -/
inductive SenderError
  | PeerNotFound
  | DecodeFailed
  | EmptyOnwardRoute
deriving DecidableEq, Repr

/-- The `TcpSendWorker::stop_and_unregister`: unregister `ctx.address()` from
the transport router, then stop this worker. -/
def stop_and_unregister (ctx_addr : Address) : List Effect :=
  [Effect.unregister ctx_addr, Effect.stopWorker ctx_addr]

/-- The `TcpSendWorker::handle_message`, translated control-flow-faithfully from
`sender.rs` lines 205-266.  `ctx_addr` is `ctx.address()` (the worker's
primary `tx` address), `msg_addr` the address the message was received on,
`payload` its raw payload, `decodeInternal` the `TcpSendWorkerMsg` codec
(`serde`-based in the source, left abstract here), and `writeOk` the outcome
of `tx.write_all`. -/
def handle_message (st : SenderState) (ctx_addr msg_addr : Address)
    (payload : List Byte) (decodeInternal : List Byte → Option TcpSendWorkerMsg)
    (writeOk : Bool) : Except SenderError (SenderState × List Effect) :=
  let effects := [Effect.cancelHeartbeat]
  if ¬st.hasTx then .error .PeerNotFound
  else if msg_addr = st.internal_addr then
    match decodeInternal payload with
    | none => .error .DecodeFailed
    | some .Heartbeat =>
      let msg := TransportMessage.v1 [] [] []
      let msg := prepare_message msg
      if ¬writeOk then
        .ok (st, effects ++ [Effect.socketWrite msg] ++ stop_and_unregister ctx_addr)
      else
        .ok (st, effects ++ [Effect.socketWrite msg] ++ [Effect.scheduleHeartbeat])
    | some .ConnectionClosed =>
      .ok ({ st with rx_addr := none },
        effects ++ stop_and_unregister ctx_addr)
  else
    match LocalMessage.decode payload with
    | none => .error .DecodeFailed
    | some lm =>
      let msg := lm.into_transport_message
      match msg.onward_route.step with
      | none => .error .EmptyOnwardRoute
      | some (_, rest) =>
        let msg := { msg with onward_route := rest }
        let framed := prepare_message msg
        if ¬writeOk then
          .ok (st, effects ++ [Effect.socketWrite framed] ++ stop_and_unregister ctx_addr)
        else
          .ok (st, effects ++ [Effect.socketWrite framed] ++ [Effect.scheduleHeartbeat])

/-- The `TcpSendWorker::shutdown`: `rx_addr.take()` and stop the receiver
processor when one is stored. -/
def sender_shutdown (st : SenderState) : SenderState × List Effect :=
  match st.rx_addr with
  | some rx => ({ st with rx_addr := none }, [Effect.stopProcessor rx])
  | none => (st, [])

/-! ## Context operations

Translated from `ockam_node/src/context.rs`.  Channel interactions become
explicit state passing: the mailbox is the queue of `RelayMessage`s still to
be received (an empty queue models a closed channel), router replies are a
`resolve` function parameter, the elapsing of a `tokio::time::timeout` is a
boolean observation of the deadline, and `forward`-requeues are collected in
a list. -/

/-- Errors of the node runtime used by the modelled `Context` operations
(`ockam_node/src/error.rs` is not in the source slice; the constructors are
the variants context.rs uses, and `EmptyRoutePanic` models the panic of
`route.next().unwrap()` on an empty route). -/
inductive NodeErr
  | SenderAddressDoesNotExist
  | FailedLoadData
  | Timeout
  | InternalIOFailure
  | EmptyRoutePanic
  | AccessControl
  | NoRouteToAddress
deriving DecidableEq, Repr

/-- Modelled from the spec: `RelayPayload` (relay.rs is not in the source
slice).  `Direct` carries an in-node `LocalMessage`; `PreRouter` carries a
message a transport router must re-dispatch.  Both constructors carry the
`LocalMessage`, as `RelayMessage::direct` / `RelayMessage::pre_router` are
both called with one in context.rs. -/
inductive RelayPayload
  | direct (lm : LocalMessage)
  | preRouter (lm : LocalMessage)
deriving DecidableEq, Repr

/-- Modelled from the spec and from the constructor calls in context.rs:
destination address, payload, and the onward route given at dispatch. -/
structure RelayMessage where
  addr : Address
  data : RelayPayload
  route : Route
deriving DecidableEq, Repr

/-- The `RelayMessage::direct(addr, local_msg, route)`. -/
def RelayMessage.direct (addr : Address) (lm : LocalMessage) (route : Route) :
    RelayMessage :=
  { addr := addr, data := RelayPayload.direct lm, route := route }

/-- The `RelayMessage::pre_router(addr, local_msg, route)`. -/
def RelayMessage.pre_router (addr : Address) (lm : LocalMessage) (route : Route) :
    RelayMessage :=
  { addr := addr, data := RelayPayload.preRouter lm, route := route }

/-- The `RelayMessage::local_msg()`: the `(addr, data)` pair read by
`next_from_mailbox`. -/
def RelayMessage.local_msg (m : RelayMessage) : Address × LocalMessage :=
  (m.addr, match m.data with
    | RelayPayload.direct lm => lm
    | RelayPayload.preRouter lm => lm)

/-- An access-control policy: `AccessControl::is_authorized`, which returns
`Result<bool>` in the source. -/
abbrev Policy := LocalMessage → Except NodeErr Bool

/-- Modelled from the spec: the `AllowAll` access-control policy; "The
default policy allows all." -/
def AllowAll : Policy := fun _ => Except.ok true

/-- The access-control policy `Context::start_worker` installs
(context.rs line 210 passes `AllowAll` to `start_worker_impl`). -/
def start_worker_policy : Policy := AllowAll

/-- The `Context::mailbox_next` from context.rs lines 62-87: loop over the
mailbox; a `Direct` message failing `is_authorized` is skipped with a
warning (`continue`) — no forward and no notification is produced — and an
authorized (or non-`Direct`) message is returned together with the rest of
the queue.  An exhausted queue models `recv()` returning `None`. -/
def mailbox_next (auth : Policy) :
    List RelayMessage → Except NodeErr (Option (RelayMessage × List RelayMessage))
  | [] => Except.ok none
  | m :: rest =>
    match m.data with
    | RelayPayload.direct lm =>
      match auth lm with
      | Except.error e => Except.error e
      | Except.ok false => mailbox_next auth rest
      | Except.ok true => Except.ok (some (m, rest))
    | RelayPayload.preRouter _ => Except.ok (some (m, rest))

/-- The next-hop target that `Context::forward` resolves for a message:
`local_msg.transport().onward_route.next()`. -/
def forwardTarget (lm : LocalMessage) : Option Address :=
  Route.next lm.transport_message.onward_route

/-- The `Context::next_from_mailbox` from context.rs lines 711-725, with the
`mailbox_next` loop fused in (structural recursion over the queue): pop the
next authorized message, parse its payload (`parser::message` =
`M::decode`); on success return the triple `(msg, data, addr)`, on decode
failure requeue the message with `forward` (collected in the middle
component) and retry.  The third component is the unconsumed queue. -/
def next_from_mailbox (dec : List Byte → Option M) (auth : Policy) :
    List RelayMessage →
      Except NodeErr (M × LocalMessage × Address) × List LocalMessage × List RelayMessage
  | [] => (Except.error NodeErr.FailedLoadData, [], [])
  | m :: rest =>
    match m.data with
    | RelayPayload.direct lm =>
      match auth lm with
      | Except.error e => (Except.error e, [], [])
      | Except.ok false => next_from_mailbox dec auth rest
      | Except.ok true =>
        match dec lm.transport_message.payload with
        | some v => (Except.ok (v, lm, m.addr), [], rest)
        | none =>
          let r := next_from_mailbox dec auth rest
          (r.1, lm :: r.2.1, r.2.2)
    | RelayPayload.preRouter lm =>
      match dec lm.transport_message.payload with
      | some v => (Except.ok (v, lm, m.addr), [], rest)
      | none =>
        let r := next_from_mailbox dec auth rest
        (r.1, lm :: r.2.1, r.2.2)

/-- Fidelity of the fused definition: `next_from_mailbox` is exactly the
source loop `loop { msg = mailbox_next()?; parse or forward-and-retry }`. -/
theorem next_from_mailbox_unfold (dec : List Byte → Option M) (auth : Policy)
    (mb : List RelayMessage) :
    next_from_mailbox dec auth mb =
      match mailbox_next auth mb with
      | Except.error e => (Except.error e, [], [])
      | Except.ok none => (Except.error NodeErr.FailedLoadData, [], [])
      | Except.ok (some (msg, rest)) =>
        match dec msg.local_msg.2.transport_message.payload with
        | some v => (Except.ok (v, msg.local_msg.2, msg.local_msg.1), [], rest)
        | none =>
          let r := next_from_mailbox dec auth rest
          (r.1, msg.local_msg.2 :: r.2.1, r.2.2) := by
  induction mb with
  | nil => simp [next_from_mailbox, mailbox_next]
  | cons m rest ih =>
    cases hd : m.data with
    | direct lm =>
      cases ha : auth lm with
      | error e => simp [next_from_mailbox, mailbox_next, hd, ha]
      | ok b =>
        cases b with
        | false => simp [next_from_mailbox, mailbox_next, hd, ha, ih]
        | true => simp [next_from_mailbox, mailbox_next, hd, ha, RelayMessage.local_msg]
    | preRouter lm =>
      simp [next_from_mailbox, mailbox_next, hd, RelayMessage.local_msg]

/-- The `DEFAULT_TIMEOUT` from context.rs: "A default timeout in seconds". -/
def DEFAULT_TIMEOUT : Nat := 30

/-- The `Context::receive_timeout` from context.rs lines 592-602:
`tokio::time::timeout(timeout_secs, next_from_mailbox)`.  `elapsed` observes
whether the deadline of the given length fires before a message is
obtained. -/
def receive_timeout (elapsed : Nat → Bool) (timeout_secs : Nat)
    (dec : List Byte → Option M) (auth : Policy) (mb : List RelayMessage) :
    Except NodeErr (M × LocalMessage × Address) × List LocalMessage :=
  if elapsed timeout_secs then (Except.error NodeErr.Timeout, [])
  else
    let r := next_from_mailbox dec auth mb
    (r.1, r.2.1)

/-- The `Context::receive` from context.rs lines 585-587:
`receive_timeout(DEFAULT_TIMEOUT)`. -/
def receive (elapsed : Nat → Bool) (dec : List Byte → Option M) (auth : Policy)
    (mb : List RelayMessage) :
    Except NodeErr (M × LocalMessage × Address) × List LocalMessage :=
  receive_timeout elapsed DEFAULT_TIMEOUT dec auth mb

/-- The loop of `Context::receive_match` (context.rs lines 617-628), fused
with `next_from_mailbox` into one structural recursion: a message whose
decoded value fails `check` is requeued with `forward` and the wait
retries. -/
def receive_match_loop (dec : List Byte → Option M) (auth : Policy)
    (check : M → Bool) :
    List RelayMessage →
      Except NodeErr (M × LocalMessage × Address) × List LocalMessage
  | [] => (Except.error NodeErr.FailedLoadData, [])
  | m :: rest =>
    match m.data with
    | RelayPayload.direct lm =>
      match auth lm with
      | Except.error e => (Except.error e, [])
      | Except.ok false => receive_match_loop dec auth check rest
      | Except.ok true =>
        match dec lm.transport_message.payload with
        | some v =>
          if check v then (Except.ok (v, lm, m.addr), [])
          else
            let r := receive_match_loop dec auth check rest
            (r.1, lm :: r.2)
        | none =>
          let r := receive_match_loop dec auth check rest
          (r.1, lm :: r.2)
    | RelayPayload.preRouter lm =>
      match dec lm.transport_message.payload with
      | some v =>
        if check v then (Except.ok (v, lm, m.addr), [])
        else
          let r := receive_match_loop dec auth check rest
          (r.1, lm :: r.2)
      | none =>
        let r := receive_match_loop dec auth check rest
        (r.1, lm :: r.2)

/-- The `Context::receive_match` from context.rs lines 612-633: the matching
loop under a `DEFAULT_TIMEOUT` deadline. -/
def receive_match (elapsed : Nat → Bool) (dec : List Byte → Option M)
    (auth : Policy) (check : M → Bool) (mb : List RelayMessage) :
    Except NodeErr (M × LocalMessage × Address) × List LocalMessage :=
  if elapsed DEFAULT_TIMEOUT then (Except.error NodeErr.Timeout, [])
  else receive_match_loop dec auth check mb

/-- The `Context` state the modelled operations read: its address set.
Spec: "An ordered, non-empty collection of addresses that refer to the same
worker.  The first element is the worker's primary address." -/
structure Context where
  address_set : List Address
deriving DecidableEq, Repr

/-- The `Context::address()`: the primary (first) address. -/
def Context.address (ctx : Context) : Address := ctx.address_set.headI

/-- The `Context::send_from_address_impl` from context.rs lines 481-523.
`resolve` stands for the router's `SenderReq` reply
(`(addr, sender, needs_wrapping)`); the returned `RelayMessage` is what is
pushed into the resolved sender's channel. -/
def send_from_address_impl (ctx : Context)
    (resolve : Address → Except NodeErr (Address × Bool))
    (route : Route) (payload : List Byte) (sending_address : Address) :
    Except NodeErr RelayMessage :=
  if ¬ ctx.address_set.contains sending_address then
    Except.error NodeErr.SenderAddressDoesNotExist
  else
    match Route.next route with
    | none => Except.error NodeErr.EmptyRoutePanic
    | some next =>
      match resolve next with
      | Except.error e => Except.error e
      | Except.ok (addr, needs_wrapping) =>
        let transport_msg := TransportMessage.v1 route [] payload
        let transport_msg :=
          { transport_msg with
            return_route := transport_msg.return_route ++ [sending_address] }
        let local_msg := LocalMessage.new transport_msg []
        Except.ok
          (if needs_wrapping then RelayMessage.pre_router addr local_msg route
           else RelayMessage.direct addr local_msg route)

/-- The `Context::send_from_address`: encode the typed message and call the
impl (`encodeM` is the message type's `Encodable::encode`). -/
def send_from_address (ctx : Context)
    (resolve : Address → Except NodeErr (Address × Bool)) (route : Route)
    (encodeM : M → List Byte) (msg : M) (sending_address : Address) :
    Except NodeErr RelayMessage :=
  send_from_address_impl ctx resolve route (encodeM msg) sending_address

/-- The `Context::send` from context.rs lines 443-451:
`send_from_address(route, msg, self.address())`. -/
def Context.send (ctx : Context)
    (resolve : Address → Except NodeErr (Address × Bool)) (route : Route)
    (encodeM : M → List Byte) (msg : M) : Except NodeErr RelayMessage :=
  send_from_address ctx resolve route encodeM msg ctx.address

/-- The `ShutdownType` requests understood by the router. -/
inductive ShutdownType
  | Immediate
  | Graceful (seconds : Nat)
deriving DecidableEq, Repr

/-- The `Context::stop_timeout` from context.rs lines 382-392: send
`NodeMessage::stop_node(ShutdownType::Graceful(seconds))` (a `u8` number of
seconds, hence `% 256`) and block until the router's acknowledgement `ack`
arrives; a closed reply channel is `InternalIOFailure`.  The result pairs
the request sent with the surfaced outcome. -/
def stop_timeout (ack : Option (Except NodeErr Unit)) (seconds : Nat) :
    ShutdownType × Except NodeErr Unit :=
  (ShutdownType.Graceful (seconds % 256),
    match ack with
    | none => Except.error NodeErr.InternalIOFailure
    | some r => r)

/-- The `Context::stop` from context.rs lines 374-376: `stop_timeout(1)`. -/
def stop (ack : Option (Except NodeErr Unit)) : ShutdownType × Except NodeErr Unit :=
  stop_timeout ack 1

/-! ## Claims -/

/-- C10: `Context::stop()` is exactly `stop_timeout(1)`: it requests a
graceful node shutdown with a one-second deadline and blocks until the
router acknowledges completion (the surfaced outcome is the router's
acknowledgement). -/
theorem c10_stop_is_stop_timeout_one :
    (∀ ack, stop ack = stop_timeout ack 1)
    ∧ (∀ ack, (stop ack).1 = ShutdownType.Graceful 1)
    ∧ (∀ ack r, ack = some r → (stop ack).2 = r) := by
  refine ⟨fun _ => rfl, fun _ => rfl, ?_⟩
  intro ack r h
  subst h
  rfl

/-- C10 witness: the theorem applied to a concrete acknowledgement. -/
theorem c10_witness :
    some (Except.ok ()) = some (Except.ok (ε := NodeErr) ())
    ∧ (stop (some (Except.ok ()))).2 = Except.ok () :=
  ⟨rfl, c10_stop_is_stop_timeout_one.2.2 (some (Except.ok ())) (Except.ok ()) rfl⟩

/-- C9: `send_from_address` with a sending address outside the context's
address set fails with `SenderAddressDoesNotExist` before contacting the
router: nothing is dispatched, and the outcome is independent of the
resolver (so no resolution request and no state change can be observed). -/
theorem c9_unknown_sender_address {M : Type} (ctx : Context)
    (resolve resolve' : Address → Except NodeErr (Address × Bool))
    (route : Route) (encodeM : M → List Byte) (msg : M) (a : Address)
    (h : a ∉ ctx.address_set) :
    send_from_address ctx resolve route encodeM msg a
        = Except.error NodeErr.SenderAddressDoesNotExist
    ∧ send_from_address ctx resolve route encodeM msg a
        = send_from_address ctx resolve' route encodeM msg a := by
  constructor <;> simp [send_from_address, send_from_address_impl, h]

/-- C9 witness. -/
theorem c9_witness :
    (⟨0, [9]⟩ : Address) ∉ (Context.mk [⟨0, [1]⟩]).address_set
    ∧ send_from_address (Context.mk [⟨0, [1]⟩]) (fun a => Except.ok (a, false))
        [⟨0, [2]⟩] (fun p : List Byte => p) [3] ⟨0, [9]⟩
        = Except.error NodeErr.SenderAddressDoesNotExist :=
  ⟨by decide,
   (c9_unknown_sender_address (Context.mk [⟨0, [1]⟩]) (fun a => Except.ok (a, false))
     (fun a => Except.ok (a, true)) [⟨0, [2]⟩] (fun p : List Byte => p) [3]
     ⟨0, [9]⟩ (by decide)).1⟩

/-- C3: a dispatched send is a `LocalMessage` with version 1, onward route
`r`, payload `encode m`, return route `[a]` (the sender's address first) and
an empty `local_info` list; and `send` is `send_from_address` at the primary
address. -/
theorem c3_send_dispatch_shape {M : Type} (ctx : Context)
    (resolve : Address → Except NodeErr (Address × Bool)) (r : Route)
    (encodeM : M → List Byte) (m : M) (a : Address) (rm : RelayMessage)
    (ha : a ∈ ctx.address_set)
    (hok : send_from_address ctx resolve r encodeM m a = Except.ok rm) :
    rm.local_msg.2 =
      LocalMessage.new
        { version := 1, onward_route := r, return_route := [a],
          payload := encodeM m } []
    ∧ (∀ m' : M, Context.send ctx resolve r encodeM m'
        = send_from_address ctx resolve r encodeM m' ctx.address) := by
  refine ⟨?_, fun _ => rfl⟩
  rw [send_from_address, send_from_address_impl] at hok
  rw [if_neg (by simpa using ha)] at hok
  split at hok
  · cases hok
  · split at hok
    · cases hok
    · injection hok with h
      subst h
      split <;>
        simp [RelayMessage.local_msg, RelayMessage.pre_router,
          RelayMessage.direct, LocalMessage.new, TransportMessage.v1]

/-- C3 witness: a concrete successful send. -/
theorem c3_witness :
    (⟨0, [1]⟩ : Address) ∈ (Context.mk [⟨0, [1]⟩]).address_set
    ∧ send_from_address (Context.mk [⟨0, [1]⟩]) (fun a => Except.ok (a, false))
        [⟨0, [2]⟩] (fun p : List Byte => p) [7] ⟨0, [1]⟩
        = Except.ok (RelayMessage.direct ⟨0, [2]⟩
            (LocalMessage.new
              { version := 1, onward_route := [⟨0, [2]⟩],
                return_route := [⟨0, [1]⟩], payload := [7] } []) [⟨0, [2]⟩])
    ∧ (RelayMessage.direct ⟨0, [2]⟩
        (LocalMessage.new
          { version := 1, onward_route := [⟨0, [2]⟩],
            return_route := [⟨0, [1]⟩], payload := [7] } []) [⟨0, [2]⟩]).local_msg.2
        = LocalMessage.new
            { version := 1, onward_route := [⟨0, [2]⟩],
              return_route := [⟨0, [1]⟩], payload := [7] } [] :=
  ⟨by decide, by rfl,
   (c3_send_dispatch_shape (Context.mk [⟨0, [1]⟩]) (fun a => Except.ok (a, false))
     [⟨0, [2]⟩] (fun p : List Byte => p) [7] ⟨0, [1]⟩ _ (by decide) (by rfl)).1⟩

/-- C8: when the sender worker handles a `ConnectionClosed` notification on
its internal address it clears the stored receiver address, unregisters its
address from the transport router and stops itself — and its shutdown hook
then issues no `stop_processor` call (the receiver is not stopped again). -/
theorem c8_connection_closed (st : SenderState) (ctx_addr : Address)
    (payload : List Byte)
    (decodeInternal : List Byte → Option TcpSendWorkerMsg) (writeOk : Bool)
    (htx : st.hasTx = true)
    (hdec : decodeInternal payload = some TcpSendWorkerMsg.ConnectionClosed) :
    handle_message st ctx_addr st.internal_addr payload decodeInternal writeOk
        = Except.ok ({ st with rx_addr := none },
            [Effect.cancelHeartbeat, Effect.unregister ctx_addr,
             Effect.stopWorker ctx_addr])
    ∧ (sender_shutdown { st with rx_addr := none }).2 = []
    ∧ (∀ rx, Effect.stopProcessor rx ∉
        [Effect.cancelHeartbeat, Effect.unregister ctx_addr,
         Effect.stopWorker ctx_addr]) := by
  refine ⟨?_, by simp [sender_shutdown], fun rx => by simp⟩
  simp [handle_message, htx, hdec, stop_and_unregister]

/-- C8 witness. -/
theorem c8_witness :
    (⟨true, ⟨0, [5]⟩, some ⟨0, [6]⟩⟩ : SenderState).hasTx = true
    ∧ (fun _ : List Byte => some TcpSendWorkerMsg.ConnectionClosed) []
        = some TcpSendWorkerMsg.ConnectionClosed
    ∧ handle_message ⟨true, ⟨0, [5]⟩, some ⟨0, [6]⟩⟩ ⟨0, [4]⟩ ⟨0, [5]⟩ []
        (fun _ => some TcpSendWorkerMsg.ConnectionClosed) true
        = Except.ok (⟨true, ⟨0, [5]⟩, none⟩,
            [Effect.cancelHeartbeat, Effect.unregister ⟨0, [4]⟩,
             Effect.stopWorker ⟨0, [4]⟩]) :=
  ⟨rfl, rfl,
   (c8_connection_closed ⟨true, ⟨0, [5]⟩, some ⟨0, [6]⟩⟩ ⟨0, [4]⟩ []
     (fun _ => some TcpSendWorkerMsg.ConnectionClosed) true rfl rfl).1⟩

/-- C5: `mailbox_next` drops every unauthorized `Direct` message — it is not
returned, not requeued and nothing is sent anywhere (the loop's only outputs
are the accepted message and the remaining queue) — and continues with the
next message; under the default `AllowAll` policy every message passes and
the head of the queue is returned unchanged. -/
theorem c5_unauthorized_dropped (auth : Policy) (drops : List RelayMessage)
    (m : RelayMessage) (rest : List RelayMessage)
    (hdrop : ∀ d ∈ drops, ∃ lm, d.data = RelayPayload.direct lm
      ∧ auth lm = Except.ok false)
    (hpass : ∀ lm, m.data = RelayPayload.direct lm → auth lm = Except.ok true) :
    mailbox_next auth (drops ++ m :: rest) = Except.ok (some (m, rest))
    ∧ (∀ M : Type, ∀ dec : List Byte → Option M, ∀ tail,
        next_from_mailbox dec auth (drops ++ tail) = next_from_mailbox dec auth tail)
    ∧ (∀ lm, AllowAll lm = Except.ok true)
    ∧ (∀ m' : RelayMessage, ∀ rest' : List RelayMessage,
        mailbox_next AllowAll (m' :: rest') = Except.ok (some (m', rest'))) := by
  refine ⟨?_, ?_, fun _ => rfl, ?_⟩
  · induction drops with
    | nil =>
      cases hd : m.data with
      | direct lm => simp [mailbox_next, hd, hpass lm hd]
      | preRouter lm => simp [mailbox_next, hd]
    | cons d ds ih =>
      obtain ⟨lm, hlm, hfalse⟩ := hdrop d (List.mem_cons_self d ds)
      simp only [List.cons_append, mailbox_next, hlm, hfalse]
      exact ih (fun d' hd' => hdrop d' (List.mem_cons_of_mem d hd'))
  · intro M dec tail
    induction drops with
    | nil => simp
    | cons d ds ih =>
      obtain ⟨lm, hlm, hfalse⟩ := hdrop d (List.mem_cons_self d ds)
      simp only [List.cons_append, next_from_mailbox, hlm, hfalse]
      exact ih (fun d' hd' => hdrop d' (List.mem_cons_of_mem d hd'))
  · intro m' rest'
    cases hd : m'.data with
    | direct lm => simp [mailbox_next, hd, AllowAll]
    | preRouter lm => simp [mailbox_next, hd]

/-- C5 witness: one unauthorized message in front of an authorized one. -/
theorem c5_witness :
    (∀ d ∈ [RelayMessage.direct ⟨0, [8]⟩ (LocalMessage.new (TransportMessage.v1 [] [] [0]) []) []],
      ∃ lm, d.data = RelayPayload.direct lm
        ∧ (fun lm' : LocalMessage =>
            Except.ok (ε := NodeErr) (lm'.transport_message.payload = [1] : Bool)) lm
          = Except.ok false)
    ∧ mailbox_next
        (fun lm' : LocalMessage =>
          Except.ok (lm'.transport_message.payload = [1] : Bool))
        ([RelayMessage.direct ⟨0, [8]⟩ (LocalMessage.new (TransportMessage.v1 [] [] [0]) []) []]
          ++ RelayMessage.direct ⟨0, [8]⟩ (LocalMessage.new (TransportMessage.v1 [] [] [1]) []) [] :: [])
        = Except.ok (some
            (RelayMessage.direct ⟨0, [8]⟩ (LocalMessage.new (TransportMessage.v1 [] [] [1]) []) [],
             [])) := by
  have hdrop : ∀ d ∈ [RelayMessage.direct ⟨0, [8]⟩
        (LocalMessage.new (TransportMessage.v1 [] [] [0]) []) []],
      ∃ lm, d.data = RelayPayload.direct lm
        ∧ (fun lm' : LocalMessage =>
            Except.ok (ε := NodeErr) (lm'.transport_message.payload = [1] : Bool)) lm
          = Except.ok false := by
    intro d hd
    simp only [List.mem_singleton] at hd
    subst hd
    exact ⟨LocalMessage.new (TransportMessage.v1 [] [] [0]) [], rfl, by rfl⟩
  have hpass : ∀ lm, (RelayMessage.direct ⟨0, [8]⟩
        (LocalMessage.new (TransportMessage.v1 [] [] [1]) []) []).data
          = RelayPayload.direct lm →
      (fun lm' : LocalMessage =>
        Except.ok (ε := NodeErr) (lm'.transport_message.payload = [1] : Bool)) lm
        = Except.ok true := by
    intro lm h
    injection h with h'
    subst h'
    rfl
  exact ⟨hdrop,
    (c5_unauthorized_dropped
      (fun lm' : LocalMessage =>
        Except.ok (lm'.transport_message.payload = [1] : Bool))
      [RelayMessage.direct ⟨0, [8]⟩ (LocalMessage.new (TransportMessage.v1 [] [] [0]) []) []]
      (RelayMessage.direct ⟨0, [8]⟩ (LocalMessage.new (TransportMessage.v1 [] [] [1]) []) [])
      [] hdrop hpass).1⟩

/-- C2 counterexample: a concrete heartbeat tick on the internal address
with a successful write.  The frame written is the length-prefixed encoding
of `TransportMessage::v1(route![], route![], vec![])`; its u16 length field
is the encoding's length — which is not zero — so the claim "the u16 length
field is zero" is false at this input. -/
theorem c2_counterexample :
    handle_message ⟨true, ⟨0, []⟩, none⟩ ⟨0, [1]⟩ ⟨0, []⟩ []
        (fun _ => some TcpSendWorkerMsg.Heartbeat) true
      = Except.ok (⟨true, ⟨0, []⟩, none⟩,
          [Effect.cancelHeartbeat,
           Effect.socketWrite (prepare_message (TransportMessage.v1 [] [] [])),
           Effect.scheduleHeartbeat])
    ∧ readU16 (prepare_message (TransportMessage.v1 [] [] [])) ≠ 0 :=
  ⟨by rfl, by decide⟩

/-- C2 amended: whenever the sender worker handles a heartbeat tick on its
internal address and the socket write succeeds, the frame written is the
length-prefixed framing of a `TransportMessage` with empty onward route,
empty return route and an *empty payload field* — its u16 length field
equals the length of that encoding (9 bytes), not zero. -/
theorem c2_amended_heartbeat_frame (st : SenderState) (ctx_addr msg_addr : Address)
    (payload : List Byte)
    (decodeInternal : List Byte → Option TcpSendWorkerMsg)
    (htx : st.hasTx = true) (haddr : msg_addr = st.internal_addr)
    (hdec : decodeInternal payload = some TcpSendWorkerMsg.Heartbeat) :
    handle_message st ctx_addr msg_addr payload decodeInternal true
        = Except.ok (st, [Effect.cancelHeartbeat,
            Effect.socketWrite (prepare_message (TransportMessage.v1 [] [] [])),
            Effect.scheduleHeartbeat])
    ∧ (TransportMessage.v1 [] [] []).payload = []
    ∧ readU16 (prepare_message (TransportMessage.v1 [] [] []))
        = (TransportMessage.encode (TransportMessage.v1 [] [] [])).length
    ∧ (TransportMessage.encode (TransportMessage.v1 [] [] [])).length = 9 := by
  refine ⟨?_, rfl, by decide, by decide⟩
  simp [handle_message, htx, haddr, hdec]

/-- C2 amended witness. -/
theorem c2_amended_witness :
    (⟨true, ⟨0, [5]⟩, none⟩ : SenderState).hasTx = true
    ∧ (⟨0, [5]⟩ : Address) = (⟨true, ⟨0, [5]⟩, none⟩ : SenderState).internal_addr
    ∧ handle_message ⟨true, ⟨0, [5]⟩, none⟩ ⟨0, [4]⟩ ⟨0, [5]⟩ [0]
        (fun _ => some TcpSendWorkerMsg.Heartbeat) true
        = Except.ok (⟨true, ⟨0, [5]⟩, none⟩,
            [Effect.cancelHeartbeat,
             Effect.socketWrite (prepare_message (TransportMessage.v1 [] [] [])),
             Effect.scheduleHeartbeat]) :=
  ⟨rfl, rfl,
   (c2_amended_heartbeat_frame ⟨true, ⟨0, [5]⟩, none⟩ ⟨0, [4]⟩ ⟨0, [5]⟩ [0]
     (fun _ => some TcpSendWorkerMsg.Heartbeat) rfl rfl rfl).1⟩

/-- C1 counterexample: for a `TransportMessage` whose encoding is 65549
bytes long (payload of 65536 zero bytes), `prepare_message` writes a u16
length field of `65549 % 2^16 = 13` — the `as u16` cast truncates — so the
framed u16 length does not equal the length of the encoded message. -/
theorem c1_counterexample :
    readU16 (prepare_message (TransportMessage.v1 [] [] (List.replicate 65536 0)))
      ≠ (TransportMessage.encode (TransportMessage.v1 [] [] (List.replicate 65536 0))).length := by
  have l1 : (encodeHead 5 4).length = 1 := by decide
  have l2 : (encodeHead 0 0).length = 1 := by decide
  have l3 : (encodeHead 0 ((1 : Byte)).val).length = 1 := by decide
  have l4 : (encodeHead 0 1).length = 1 := by decide
  have l5 : (encodeRoute []).length = 1 := by decide
  have l6 : (encodeHead 0 2).length = 1 := by decide
  have l7 : (encodeHead 0 3).length = 1 := by decide
  have l8 : (encodeHead 2 65536).length = 5 := by decide
  have hlen : (TransportMessage.encode
      (TransportMessage.v1 [] [] (List.replicate 65536 0))).length = 65549 := by
    rw [TransportMessage.encode, encodeTransportMessage, encodeByteStr]
    simp only [TransportMessage.v1, List.length_append, List.length_replicate,
      l1, l2, l3, l4, l5, l6, l7, l8]
  have hread : readU16 (prepare_message (TransportMessage.v1 [] [] (List.replicate 65536 0)))
      = 13 := by
    rw [prepare_message_eq, hlen]
    norm_num [u16_to_be_bytes, readU16, byte]
  rw [hread, hlen]
  norm_num

/-- C1 amended: for every `TransportMessage` whose CBOR encoding fits the
u16 length field (length < 2^16; a Rust buffer also keeps every nested
length below 2^64), the frame produced by `prepare_message` is the
big-endian u16 encoding of the length of the encoded message followed by
exactly those bytes, the framed u16 length equals the encoded length, and
the encoded bytes decode back to the message. -/
theorem c1_amended_framing (msg : TransportMessage)
    (h : sizeOkTransportMessage msg)
    (hfit : (TransportMessage.encode msg).length < 65536) :
    prepare_message msg
        = u16_to_be_bytes (TransportMessage.encode msg).length
            ++ TransportMessage.encode msg
    ∧ readU16 (prepare_message msg) = (TransportMessage.encode msg).length
    ∧ TransportMessage.decode (TransportMessage.encode msg) = some msg := by
  have hm : (TransportMessage.encode msg).length % 65536
      = (TransportMessage.encode msg).length := Nat.mod_eq_of_lt hfit
  have hdiv : (TransportMessage.encode msg).length / 256 < 256 := by omega
  have hmod : (TransportMessage.encode msg).length % 256 < 256 := by omega
  refine ⟨by rw [prepare_message_eq, hm], ?_, transportMessage_decode_encode msg h⟩
  rw [prepare_message_eq, hm]
  simp [u16_to_be_bytes, readU16, byte_val _ hdiv, byte_val _ hmod]
  omega

/-- C1 amended witness: a concrete in-range message. -/
theorem c1_amended_witness :
    sizeOkTransportMessage (TransportMessage.v1 [] [] [1, 2, 3])
    ∧ (TransportMessage.encode (TransportMessage.v1 [] [] [1, 2, 3])).length < 65536
    ∧ (prepare_message (TransportMessage.v1 [] [] [1, 2, 3])
        = u16_to_be_bytes (TransportMessage.encode (TransportMessage.v1 [] [] [1, 2, 3])).length
            ++ TransportMessage.encode (TransportMessage.v1 [] [] [1, 2, 3])
      ∧ readU16 (prepare_message (TransportMessage.v1 [] [] [1, 2, 3]))
          = (TransportMessage.encode (TransportMessage.v1 [] [] [1, 2, 3])).length
      ∧ TransportMessage.decode (TransportMessage.encode (TransportMessage.v1 [] [] [1, 2, 3]))
          = some (TransportMessage.v1 [] [] [1, 2, 3])) :=
  ⟨by decide, by decide,
   c1_amended_framing (TransportMessage.v1 [] [] [1, 2, 3]) (by decide) (by decide)⟩

/-- C7: `decode (encode x) = x` for `TransportMessage` and `LocalMessage`
(hence for their nested `Route`, `Address` and `LocalInfo` fields), and the
encoding is deterministic: the same value always encodes to the same
bytes. -/
theorem c7_codec_roundtrip :
    (∀ tm : TransportMessage, sizeOkTransportMessage tm →
        TransportMessage.decode (TransportMessage.encode tm) = some tm)
    ∧ (∀ lm : LocalMessage, sizeOkLocalMessage lm →
        LocalMessage.decode (LocalMessage.encode lm) = some lm)
    ∧ (∀ tm₁ tm₂ : TransportMessage, tm₁ = tm₂ →
        TransportMessage.encode tm₁ = TransportMessage.encode tm₂)
    ∧ (∀ lm₁ lm₂ : LocalMessage, lm₁ = lm₂ →
        LocalMessage.encode lm₁ = LocalMessage.encode lm₂) :=
  ⟨transportMessage_decode_encode, localMessage_decode_encode,
   fun _ _ h => by rw [h], fun _ _ h => by rw [h]⟩

/-- C7 witness: a concrete nested message round trip. -/
theorem c7_witness :
    sizeOkLocalMessage
      (LocalMessage.new (TransportMessage.v1 [⟨1, [104]⟩] [⟨0, [99]⟩] [1, 2])
        [⟨[97], [5]⟩])
    ∧ LocalMessage.decode (LocalMessage.encode
        (LocalMessage.new (TransportMessage.v1 [⟨1, [104]⟩] [⟨0, [99]⟩] [1, 2])
          [⟨[97], [5]⟩]))
      = some (LocalMessage.new (TransportMessage.v1 [⟨1, [104]⟩] [⟨0, [99]⟩] [1, 2])
          [⟨[97], [5]⟩]) :=
  ⟨by decide,
   c7_codec_roundtrip.2.1
     (LocalMessage.new (TransportMessage.v1 [⟨1, [104]⟩] [⟨0, [99]⟩] [1, 2])
       [⟨[97], [5]⟩]) (by decide)⟩

/-- C6: on the non-internal path the sender worker writes the
length-prefixed framing of the inner `TransportMessage` with its first
onward hop popped, and the result depends only on that transport message:
two payloads decoding to `LocalMessage`s with equal transport messages but
different `local_info` produce identical behaviour (LocalInfo is stripped
at transport egress). -/
theorem c6_localinfo_stripped (st : SenderState) (ctx_addr msg_addr : Address)
    (decodeInternal : List Byte → Option TcpSendWorkerMsg) (writeOk : Bool)
    (p₁ p₂ : List Byte) (l₁ l₂ : LocalMessage)
    (hne : ¬ msg_addr = st.internal_addr)
    (h₁ : LocalMessage.decode p₁ = some l₁)
    (h₂ : LocalMessage.decode p₂ = some l₂)
    (heq : l₁.transport_message = l₂.transport_message) :
    handle_message st ctx_addr msg_addr p₁ decodeInternal writeOk
      = handle_message st ctx_addr msg_addr p₂ decodeInternal writeOk
    ∧ (∀ a rest, l₁.transport_message.onward_route = a :: rest →
        st.hasTx = true →
        handle_message st ctx_addr msg_addr p₁ decodeInternal writeOk
          = Except.ok (st,
              [Effect.cancelHeartbeat,
               Effect.socketWrite (prepare_message
                 { l₁.transport_message with onward_route := rest })]
              ++ (if writeOk then [Effect.scheduleHeartbeat]
                  else stop_and_unregister ctx_addr))) := by
  constructor
  · simp only [handle_message, hne, if_false, h₁, h₂,
      LocalMessage.into_transport_message, heq]
  · intro a rest hroute htx
    cases writeOk <;>
      simp [handle_message, hne, htx, h₁, LocalMessage.into_transport_message,
        hroute, Route.step]

/-- C6 witness: two concrete payloads, same transport message, different
LocalInfo, identical sender behaviour. -/
theorem c6_witness :
    ¬ (⟨0, [3]⟩ : Address) = (⟨true, ⟨0, [9]⟩, none⟩ : SenderState).internal_addr
    ∧ LocalMessage.decode (LocalMessage.encode
        (LocalMessage.new (TransportMessage.v1 [⟨0, [2]⟩] [] [1]) []))
      = some (LocalMessage.new (TransportMessage.v1 [⟨0, [2]⟩] [] [1]) [])
    ∧ LocalMessage.decode (LocalMessage.encode
        (LocalMessage.new (TransportMessage.v1 [⟨0, [2]⟩] [] [1]) [⟨[97], [7]⟩]))
      = some (LocalMessage.new (TransportMessage.v1 [⟨0, [2]⟩] [] [1]) [⟨[97], [7]⟩])
    ∧ (LocalMessage.new (TransportMessage.v1 [⟨0, [2]⟩] [] [1]) []).transport_message
      = (LocalMessage.new (TransportMessage.v1 [⟨0, [2]⟩] [] [1]) [⟨[97], [7]⟩]).transport_message
    ∧ handle_message ⟨true, ⟨0, [9]⟩, none⟩ ⟨0, [4]⟩ ⟨0, [3]⟩
        (LocalMessage.encode (LocalMessage.new (TransportMessage.v1 [⟨0, [2]⟩] [] [1]) []))
        (fun _ => none) true
      = handle_message ⟨true, ⟨0, [9]⟩, none⟩ ⟨0, [4]⟩ ⟨0, [3]⟩
          (LocalMessage.encode
            (LocalMessage.new (TransportMessage.v1 [⟨0, [2]⟩] [] [1]) [⟨[97], [7]⟩]))
          (fun _ => none) true :=
  ⟨by decide, by decide, by decide, rfl,
   (c6_localinfo_stripped ⟨true, ⟨0, [9]⟩, none⟩ ⟨0, [4]⟩ ⟨0, [3]⟩ (fun _ => none) true
     (LocalMessage.encode (LocalMessage.new (TransportMessage.v1 [⟨0, [2]⟩] [] [1]) []))
     (LocalMessage.encode
       (LocalMessage.new (TransportMessage.v1 [⟨0, [2]⟩] [] [1]) [⟨[97], [7]⟩]))
     (LocalMessage.new (TransportMessage.v1 [⟨0, [2]⟩] [] [1]) [])
     (LocalMessage.new (TransportMessage.v1 [⟨0, [2]⟩] [] [1]) [⟨[97], [7]⟩])
     (by decide) (by decide) (by decide) rfl).1⟩

theorem next_from_mailbox_ok_decodes {M : Type} (dec : List Byte → Option M)
    (auth : Policy) :
    ∀ (mb : List RelayMessage) (v : M) (lm : LocalMessage) (a : Address)
      (fwd : List LocalMessage) (rest : List RelayMessage),
      next_from_mailbox dec auth mb = (Except.ok (v, lm, a), fwd, rest) →
      dec lm.transport_message.payload = some v := by
  intro mb
  induction mb with
  | nil =>
    intro v lm a fwd rest h
    simp [next_from_mailbox] at h
  | cons m tail ih =>
    intro v lm a fwd rest h
    cases hd : m.data with
    | direct lm' =>
      cases ha : auth lm' with
      | error e =>
        simp [next_from_mailbox, hd, ha] at h
      | ok b =>
        cases b with
        | false =>
          simp only [next_from_mailbox, hd, ha] at h
          exact ih v lm a fwd rest h
        | true =>
          cases hdec : dec lm'.transport_message.payload with
          | some w =>
            simp only [next_from_mailbox, hd, ha, hdec, Prod.mk.injEq,
              Except.ok.injEq] at h
            obtain ⟨⟨hv, hlm, _⟩, _, _⟩ := h
            subst hv; subst hlm
            exact hdec
          | none =>
            rcases hr : next_from_mailbox dec auth tail with ⟨r1, rfwd, rrest⟩
            simp only [next_from_mailbox, hd, ha, hdec, hr, Prod.mk.injEq] at h
            exact ih v lm a rfwd rrest (by rw [hr, h.1])
    | preRouter lm' =>
      cases hdec : dec lm'.transport_message.payload with
      | some w =>
        simp only [next_from_mailbox, hd, hdec, Prod.mk.injEq,
          Except.ok.injEq] at h
        obtain ⟨⟨hv, hlm, _⟩, _, _⟩ := h
        subst hv; subst hlm
        exact hdec
      | none =>
        rcases hr : next_from_mailbox dec auth tail with ⟨r1, rfwd, rrest⟩
        simp only [next_from_mailbox, hd, hdec, hr, Prod.mk.injEq] at h
        exact ih v lm a rfwd rrest (by rw [hr, h.1])

theorem next_from_mailbox_forwarded {M : Type} (dec : List Byte → Option M)
    (auth : Policy) :
    ∀ mb : List RelayMessage, ∀ lm ∈ (next_from_mailbox dec auth mb).2.1,
      dec lm.transport_message.payload = none
      ∧ ∃ rm ∈ mb, rm.local_msg.2 = lm := by
  intro mb
  induction mb with
  | nil => simp [next_from_mailbox]
  | cons m tail ih =>
    intro lm hmem
    cases hd : m.data with
    | direct lm' =>
      cases ha : auth lm' with
      | error e =>
        simp [next_from_mailbox, hd, ha] at hmem
      | ok b =>
        cases b with
        | false =>
          simp only [next_from_mailbox, hd, ha] at hmem
          obtain ⟨hdec, rm, hrm, hlm⟩ := ih lm hmem
          exact ⟨hdec, rm, List.mem_cons_of_mem m hrm, hlm⟩
        | true =>
          cases hdec : dec lm'.transport_message.payload with
          | some w =>
            simp [next_from_mailbox, hd, ha, hdec] at hmem
          | none =>
            simp only [next_from_mailbox, hd, ha, hdec, List.mem_cons] at hmem
            cases hmem with
            | inl hl =>
              subst hl
              exact ⟨hdec, m, List.mem_cons_self m tail,
                by simp [RelayMessage.local_msg, hd]⟩
            | inr hr =>
              obtain ⟨hdec', rm, hrm, hlm⟩ := ih lm hr
              exact ⟨hdec', rm, List.mem_cons_of_mem m hrm, hlm⟩
    | preRouter lm' =>
      cases hdec : dec lm'.transport_message.payload with
      | some w =>
        simp [next_from_mailbox, hd, hdec] at hmem
      | none =>
        simp only [next_from_mailbox, hd, hdec, List.mem_cons] at hmem
        cases hmem with
        | inl hl =>
          subst hl
          exact ⟨hdec, m, List.mem_cons_self m tail,
            by simp [RelayMessage.local_msg, hd]⟩
        | inr hr =>
          obtain ⟨hdec', rm, hrm, hlm⟩ := ih lm hr
          exact ⟨hdec', rm, List.mem_cons_of_mem m hrm, hlm⟩

theorem receive_match_loop_ok {M : Type} (dec : List Byte → Option M)
    (auth : Policy) (check : M → Bool) :
    ∀ (mb : List RelayMessage) (v : M) (lm : LocalMessage) (a : Address)
      (fwd : List LocalMessage),
      receive_match_loop dec auth check mb = (Except.ok (v, lm, a), fwd) →
      dec lm.transport_message.payload = some v ∧ check v = true := by
  intro mb
  induction mb with
  | nil =>
    intro v lm a fwd h
    simp [receive_match_loop] at h
  | cons m tail ih =>
    intro v lm a fwd h
    cases hd : m.data with
    | direct lm' =>
      cases ha : auth lm' with
      | error e =>
        simp [receive_match_loop, hd, ha] at h
      | ok b =>
        cases b with
        | false =>
          simp only [receive_match_loop, hd, ha] at h
          exact ih v lm a fwd h
        | true =>
          cases hdec : dec lm'.transport_message.payload with
          | some w =>
            cases hc : check w with
            | true =>
              simp only [receive_match_loop, hd, ha, hdec, hc, if_true,
                Prod.mk.injEq, Except.ok.injEq] at h
              obtain ⟨⟨hv, hlm, _⟩, _⟩ := h
              subst hv; subst hlm
              exact ⟨hdec, hc⟩
            | false =>
              rcases hr : receive_match_loop dec auth check tail with ⟨r1, rfwd⟩
              simp only [receive_match_loop, hd, ha, hdec, hc,
                Bool.false_eq_true, if_false, hr, Prod.mk.injEq] at h
              exact ih v lm a rfwd (by rw [hr, h.1])
          | none =>
            rcases hr : receive_match_loop dec auth check tail with ⟨r1, rfwd⟩
            simp only [receive_match_loop, hd, ha, hdec, hr, Prod.mk.injEq] at h
            exact ih v lm a rfwd (by rw [hr, h.1])
    | preRouter lm' =>
      cases hdec : dec lm'.transport_message.payload with
      | some w =>
        cases hc : check w with
        | true =>
          simp only [receive_match_loop, hd, hdec, hc, if_true,
            Prod.mk.injEq, Except.ok.injEq] at h
          obtain ⟨⟨hv, hlm, _⟩, _⟩ := h
          subst hv; subst hlm
          exact ⟨hdec, hc⟩
        | false =>
          rcases hr : receive_match_loop dec auth check tail with ⟨r1, rfwd⟩
          simp only [receive_match_loop, hd, hdec, hc,
            Bool.false_eq_true, if_false, hr, Prod.mk.injEq] at h
          exact ih v lm a rfwd (by rw [hr, h.1])
      | none =>
        rcases hr : receive_match_loop dec auth check tail with ⟨r1, rfwd⟩
        simp only [receive_match_loop, hd, hdec, hr, Prod.mk.injEq] at h
        exact ih v lm a rfwd (by rw [hr, h.1])

/-- C4: `receive` waits with the default 30-second timeout
(`receive_timeout(DEFAULT_TIMEOUT)`); a mailbox message whose payload fails
to decode (or, for `receive_match`, whose decoded value fails the check) is
requeued by `forward` back to the address at the head of its onward route —
the worker's own address for messages delivered to it — not dropped and not
returned as an error, and the wait retries; any message `receive` or
`receive_match` returns decoded successfully (and passed the check), and an
elapsed deadline yields the `Timeout` error. -/
theorem c4_receive_semantics (M : Type) (elapsed : Nat → Bool)
    (dec : List Byte → Option M) (auth : Policy) (check : M → Bool)
    (mb : List RelayMessage) (ownAddr : Address) :
    DEFAULT_TIMEOUT = 30
    ∧ receive elapsed dec auth mb = receive_timeout elapsed DEFAULT_TIMEOUT dec auth mb
    ∧ (elapsed 30 = true →
        receive elapsed dec auth mb = (Except.error NodeErr.Timeout, [])
        ∧ receive_match elapsed dec auth check mb
            = (Except.error NodeErr.Timeout, []))
    ∧ (∀ v lm a fwd, receive elapsed dec auth mb = (Except.ok (v, lm, a), fwd) →
        dec lm.transport_message.payload = some v)
    ∧ (∀ v lm a fwd,
        receive_match elapsed dec auth check mb = (Except.ok (v, lm, a), fwd) →
        dec lm.transport_message.payload = some v ∧ check v = true)
    ∧ ((∀ rm ∈ mb, forwardTarget rm.local_msg.2 = some ownAddr) →
        ∀ lm ∈ (receive elapsed dec auth mb).2,
          dec lm.transport_message.payload = none
          ∧ forwardTarget lm = some ownAddr) := by
  refine ⟨rfl, rfl, ?_, ?_, ?_, ?_⟩
  · intro he
    constructor <;> simp [receive, receive_timeout, receive_match, DEFAULT_TIMEOUT, he]
  · intro v lm a fwd h
    cases he : elapsed 30 with
    | true =>
      simp [receive, receive_timeout, DEFAULT_TIMEOUT, he] at h
    | false =>
      rcases hr : next_from_mailbox dec auth mb with ⟨r1, rfwd, rrest⟩
      simp only [receive, receive_timeout, DEFAULT_TIMEOUT, he, Bool.false_eq_true,
        if_false, hr, Prod.mk.injEq] at h
      exact next_from_mailbox_ok_decodes dec auth mb v lm a rfwd rrest
        (by rw [hr, h.1])
  · intro v lm a fwd h
    cases he : elapsed 30 with
    | true =>
      simp [receive_match, DEFAULT_TIMEOUT, he] at h
    | false =>
      rcases hr : receive_match_loop dec auth check mb with ⟨r1, rfwd⟩
      simp only [receive_match, DEFAULT_TIMEOUT, he, Bool.false_eq_true,
        if_false, hr, Prod.mk.injEq] at h
      exact receive_match_loop_ok dec auth check mb v lm a rfwd (by rw [hr, h.1])
  · intro hinv lm hmem
    cases he : elapsed 30 with
    | true =>
      simp [receive, receive_timeout, DEFAULT_TIMEOUT, he] at hmem
    | false =>
      simp only [receive, receive_timeout, DEFAULT_TIMEOUT, he,
        Bool.false_eq_true, if_false] at hmem
      obtain ⟨hdec, rm, hrm, hlm⟩ := next_from_mailbox_forwarded dec auth mb lm hmem
      exact ⟨hdec, hlm ▸ hinv rm hrm⟩

/-- C4 witness: a queue with one undecodable message followed by a decodable
one; the undecodable one is requeued towards its onward head (the worker's
own address) and the returned message decoded successfully. -/
theorem c4_witness :
    DEFAULT_TIMEOUT = 30
    ∧ (fun p : List Byte => if p = [1] then some true else none)
        (LocalMessage.new (TransportMessage.v1 [⟨0, [7]⟩] [] [1])
          []).transport_message.payload = some true
    ∧ ((fun p : List Byte => if p = [1] then some true else none)
         (LocalMessage.new (TransportMessage.v1 [⟨0, [7]⟩] [] [0])
           []).transport_message.payload = none
       ∧ forwardTarget (LocalMessage.new (TransportMessage.v1 [⟨0, [7]⟩] [] [0]) [])
           = some ⟨0, [7]⟩) := by
  refine ⟨(c4_receive_semantics Bool (fun _ => false)
      (fun p : List Byte => if p = [1] then some true else none) AllowAll
      (fun b => b)
      [RelayMessage.direct ⟨0, [8]⟩
        (LocalMessage.new (TransportMessage.v1 [⟨0, [7]⟩] [] [0]) []) [⟨0, [7]⟩],
       RelayMessage.direct ⟨0, [8]⟩
        (LocalMessage.new (TransportMessage.v1 [⟨0, [7]⟩] [] [1]) []) [⟨0, [7]⟩]]
      ⟨0, [7]⟩).1, ?_, ?_⟩
  · exact (c4_receive_semantics Bool (fun _ => false)
      (fun p : List Byte => if p = [1] then some true else none) AllowAll
      (fun b => b)
      [RelayMessage.direct ⟨0, [8]⟩
        (LocalMessage.new (TransportMessage.v1 [⟨0, [7]⟩] [] [0]) []) [⟨0, [7]⟩],
       RelayMessage.direct ⟨0, [8]⟩
        (LocalMessage.new (TransportMessage.v1 [⟨0, [7]⟩] [] [1]) []) [⟨0, [7]⟩]]
      ⟨0, [7]⟩).2.2.2.1 true
      (LocalMessage.new (TransportMessage.v1 [⟨0, [7]⟩] [] [1]) []) ⟨0, [8]⟩
      [LocalMessage.new (TransportMessage.v1 [⟨0, [7]⟩] [] [0]) []] rfl
  · exact (c4_receive_semantics Bool (fun _ => false)
      (fun p : List Byte => if p = [1] then some true else none) AllowAll
      (fun b => b)
      [RelayMessage.direct ⟨0, [8]⟩
        (LocalMessage.new (TransportMessage.v1 [⟨0, [7]⟩] [] [0]) []) [⟨0, [7]⟩],
       RelayMessage.direct ⟨0, [8]⟩
        (LocalMessage.new (TransportMessage.v1 [⟨0, [7]⟩] [] [1]) []) [⟨0, [7]⟩]]
      ⟨0, [7]⟩).2.2.2.2.2 (by decide)
      (LocalMessage.new (TransportMessage.v1 [⟨0, [7]⟩] [] [0]) []) (by decide)

end Ockam
